import Mathlib

/-!
Shallow embedding of the FAMAST color-map engine (src/claude2.py).

The Python source ingests geotagged, per-year RGB-fraction samples
(`load_painting_data`), resolves one color per region per year by
inverse-distance weighted averaging of the nearest samples
(`interpolate_colors_to_countries`), and drives one frame per distinct year
(`animate_color_usage`).

Modelling conventions:
* Python floats are modelled as rationals; the NaN guards of the source
  (`np.isnan`) are noted where they occur but cannot fire over rationals.
* The planar point-to-point distance comes from the external shapely library
  (`country_centroid.distance(painting_point)`, planar Euclidean); it is kept
  as an explicit function parameter `dist` of the pipeline, so every theorem
  quantifies over it (with a nonnegativity hypothesis where a claim needs that
  property of Euclidean distance).
* Python list.sort with a key is a stable sort; `List.insertionSort` with the
  non-strict key order is stable in exactly the same sense and models it.
* matplotlib rgb2hex rounds each channel with round-half-to-even and prints
  two lowercase hex digits per channel; both are reproduced exactly.
* Printed warnings and saved files are modelled as data in the driver output
  (a warning flag and the list of produced frame paths).
-/

namespace FAMAST

/-- Clamp a rational to the unit interval, as `min(max(v, 0.0), 1.0)` in the
source. -/
def clamp01 (x : ℚ) : ℚ := min (max x 0) 1

/-- One sanitized sample row: `year, latitude, longitude, red_pct, green_pct,
blue_pct` (src/claude2.py line 102). -/
structure Sample where
  year : Int
  latitude : ℚ
  longitude : ℚ
  red_pct : ℚ
  green_pct : ℚ
  blue_pct : ℚ
deriving DecidableEq, Repr

/-- One region row of the Europe GeoDataFrame: a name, the centroid of its
geometry (the anchor used for distances, line 226), and the mutable per-year
color column. -/
structure Region where
  name : String
  anchorLat : ℚ
  anchorLon : ℚ
  color : Option String
deriving DecidableEq, Repr

/-- Type of the planar point-to-point distance function supplied by shapely
(line 233); the pipeline is parametric in it. -/
def Dist : Type := (ℚ × ℚ) → (ℚ × ℚ) → ℚ

/-- Anchor point of a region: the centroid of its geometry (line 226). -/
def anchor (c : Region) : ℚ × ℚ := (c.anchorLat, c.anchorLon)

/-- Location of a sample point (lines 134-136: latitude, longitude). -/
def location (s : Sample) : ℚ × ℚ := (s.latitude, s.longitude)

/-- Exact-year filter on the year column (line 208), with no year window. -/
def yearData (samples : List Sample) (year : Int) : List Sample :=
  samples.filter (fun s => s.year == year)

/-- Distance list for one region: pairs `(distance, painting)` from the region
anchor to each sample of the year (lines 229-234). -/
def distancesFor (dist : Dist) (c : Region) (year_data : List Sample) :
    List (ℚ × Sample) :=
  year_data.map (fun p => (dist (anchor c) (location p), p))

/-- Sort ascending by distance and take the `min(5, len)` nearest
(lines 240-241). Python list.sort is stable; insertionSort over the
non-strict key order is the same stable sort. -/
def nearestFor (dist : Dist) (c : Region) (year_data : List Sample) :
    List (ℚ × Sample) :=
  let sorted :=
    List.insertionSort (fun a b : ℚ × Sample => a.1 ≤ b.1)
      (distancesFor dist c year_data)
  sorted.take (min 5 sorted.length)

/-- The small positive constant added to a distance before inversion
(line 252). -/
def eps : ℚ := 1 / 1000

/-- Inverse-distance weight of one candidate (line 252). -/
def weightOf (d : ℚ) : ℚ := 1 / (d + eps)

/-- Accumulator of the weighting loop (lines 245-248). -/
structure Acc where
  total_weight : ℚ
  r_weighted_sum : ℚ
  g_weighted_sum : ℚ
  b_weighted_sum : ℚ
deriving DecidableEq, Repr

/-- One iteration of the weighting loop (lines 250-256). -/
def accumStep (acc : Acc) (dp : ℚ × Sample) : Acc :=
  let weight := weightOf dp.1
  { total_weight := acc.total_weight + weight
    r_weighted_sum := acc.r_weighted_sum + dp.2.red_pct * weight
    g_weighted_sum := acc.g_weighted_sum + dp.2.green_pct * weight
    b_weighted_sum := acc.b_weighted_sum + dp.2.blue_pct * weight }

/-- The whole weighting loop, starting from zero sums (lines 245-256). -/
def accumulate (nearest : List (ℚ × Sample)) : Acc :=
  nearest.foldl accumStep ⟨0, 0, 0, 0⟩

/-- One averaged channel:
`min(max(w_sum / total if total > 0 else 0.5, 0.0), 1.0)` (lines 259-261). -/
def channelAvg (wsum total : ℚ) : ℚ :=
  clamp01 (if 0 < total then wsum / total else 1 / 2)

/-- The three averaged channels for one region and year (lines 243-261). -/
def resolvedChannels (dist : Dist) (samples : List Sample) (c : Region)
    (year : Int) : ℚ × ℚ × ℚ :=
  let acc := accumulate (nearestFor dist c (yearData samples year))
  (channelAvg acc.r_weighted_sum acc.total_weight,
   channelAvg acc.g_weighted_sum acc.total_weight,
   channelAvg acc.b_weighted_sum acc.total_weight)

/-- Round half to even, the rounding used by `np.round` inside matplotlib
rgb2hex. -/
def roundHalfEven (x : ℚ) : ℤ :=
  if x - ⌊x⌋ < 1 / 2 then ⌊x⌋
  else if 1 / 2 < x - ⌊x⌋ then ⌊x⌋ + 1
  else if ⌊x⌋ % 2 = 0 then ⌊x⌋ else ⌊x⌋ + 1

/-- Lowercase hex digit for a value below 16, as printed by format 02x. -/
def hexDigit (n : Nat) : Char :=
  if n < 10 then Char.ofNat (48 + n) else Char.ofNat (97 + (n - 10))

/-- Two lowercase hex digits of a byte, as printed by format 02x. -/
def byteHex (n : Nat) : String :=
  String.mk [hexDigit (n / 16), hexDigit (n % 16)]

/-- matplotlib rgb2hex (line 267): each channel times 255, rounded half to
even, printed as two lowercase hex digits after the leading hash. -/
def rgb2hex (r g b : ℚ) : String :=
  "#" ++ byteHex (roundHalfEven (r * 255)).toNat
      ++ byteHex (roundHalfEven (g * 255)).toNat
      ++ byteHex (roundHalfEven (b * 255)).toNat

/-- The guarded hex conversion (lines 264-273): the range check of the source
also tests `np.isnan`, which cannot hold over rationals, so only the interval
test remains; out-of-range channels fall back to the gray sentinel. -/
def safeHex (r g b : ℚ) : String :=
  if 0 ≤ r ∧ r ≤ 1 ∧ 0 ≤ g ∧ g ≤ 1 ∧ 0 ≤ b ∧ b ≤ 1 then rgb2hex r g b
  else "#CCCCCC"

/-- ColorResolver for one region and one year, the per-country body of
`interpolate_colors_to_countries` (lines 208-277) together with the
empty-year early return distributed to the single region: returns the color
and the had-data flag of the spec contract. -/
def resolve (dist : Dist) (c : Region) (year : Int) (samples : List Sample) :
    String × Bool :=
  let year_data := yearData samples year
  if year_data.isEmpty then ("#CCCCCC", false)
  else if (nearestFor dist c year_data).isEmpty then ("#CCCCCC", false)
  else
    let ch := resolvedChannels dist samples c year
    (safeHex ch.1 ch.2.1 ch.2.2, true)

/-- Dominant channel of a year (lines 288-304): unweighted means of the three
channels over all samples of the year, labelled by the maximum; the source
additionally tests the means for NaN, impossible over rationals. The empty
case mirrors a mean over an empty series, which would be NaN and yield none
(the caller never reaches this computation with an empty year). -/
def dominantOf (year_data : List Sample) : Option String :=
  if year_data.isEmpty then none
  else
    let n : ℚ := year_data.length
    let r_avg := (year_data.map Sample.red_pct).sum / n
    let g_avg := (year_data.map Sample.green_pct).sum / n
    let b_avg := (year_data.map Sample.blue_pct).sum / n
    let max_component := max r_avg (max g_avg b_avg)
    if max_component = r_avg then some ("Red")
    else if max_component = g_avg then some ("Green")
    else some ("Blue")

/-- Write the no-data sentinel into the color slot of a region (lines 213,
279). -/
def sentinelRegion (c : Region) : Region := { c with color := some ("#CCCCCC") }

/-- Body of the per-country loop (lines 222-277): a region with no nearby
samples keeps the sentinel, otherwise it receives the guarded hex conversion
of its resolved channels. -/
def colorRegion (dist : Dist) (samples : List Sample) (year : Int) (c : Region) :
    Region :=
  if (nearestFor dist c (yearData samples year)).isEmpty then sentinelRegion c
  else
    let ch := resolvedChannels dist samples c year
    { c with color := some (safeHex ch.1 ch.2.1 ch.2.2) }

/-- YearFrameBuilder, `interpolate_colors_to_countries` (lines 206-309):
empty year short-circuits to an all-sentinel frame with no dominant channel;
otherwise every region receives its resolved color (sentinel when it has no
nearest samples), and the dominant channel is computed only when at least one
region obtained a computed color (lines 277, 285-286). The per-country
try/except of the source never fires in this pure model. -/
def interpolate_colors_to_countries (dist : Dist) (samples : List Sample)
    (regions : List Region) (year : Int) : List Region × Option String :=
  let year_data := yearData samples year
  if year_data.isEmpty then
    (regions.map sentinelRegion, none)
  else
    let colored := regions.map (colorRegion dist samples year)
    let countries_with_colors :=
      regions.filter (fun c => !(nearestFor dist c year_data).isEmpty)
    if countries_with_colors.isEmpty then (colored, none)
    else (colored, dominantOf year_data)

/-- Zero-padding of a frame index to three digits, as format 03d. -/
def pad3 (i : Nat) : String :=
  let s := toString i
  if 3 ≤ s.length then s
  else String.mk (List.replicate (3 - s.length) (Char.ofNat 48)) ++ s

/-- Path of the raster file of one frame (line 386). -/
def framePath (i : Nat) (year : Int) : String :=
  "animation_frames/frame_" ++ pad3 i ++ "_" ++ toString year ++ ".png"

/-- The year sequence of the driver: the sorted unique years of the data
(line 314), distinct years in ascending order. -/
def yearsOf (samples : List Sample) : List Int :=
  List.insertionSort (fun a b : Int => a ≤ b) (samples.map Sample.year).dedup

/-- Observable output of the driver: the frames, the written frame paths, and
whether the no-years warning was printed. -/
structure DriverOutput where
  frames : List (List Region × Option String)
  files : List String
  emptyWarning : Bool
deriving DecidableEq, Repr

/-- SequenceDriver, `animate_color_usage` (lines 312-392): with no years it
prints the warning and returns without producing frames (lines 316-318);
otherwise it builds one frame per year in ascending year order and writes one
raster per year at `frame_<index>_<year>.png` with the index running in step
(lines 367-387). Figure styling and the best-effort GIF assembly are
rendering concerns outside the data model. -/
def animate_color_usage (dist : Dist) (samples : List Sample)
    (regions : List Region) : DriverOutput :=
  let years := yearsOf samples
  if years.isEmpty then { frames := [], files := [], emptyWarning := true }
  else
    { frames :=
        years.map (fun y => interpolate_colors_to_countries dist samples regions y)
      files := years.enum.map (fun iy => framePath iy.1 iy.2)
      emptyWarning := false }

/-- Raw row of the tabular input before color normalization: same shape as a
sample, channels possibly on the 0-255 scale. -/
structure RawSample where
  year : Int
  latitude : ℚ
  longitude : ℚ
  red_pct : ℚ
  green_pct : ℚ
  blue_pct : ℚ
deriving DecidableEq, Repr

/-- Whether a column maximum exceeds 1, the per-column normalization trigger
`data[col].max() > 1.0` (line 124); the maximum of an empty column is NaN in
pandas and the comparison is then false. -/
def colMaxGtOne (col : List ℚ) : Bool :=
  match col with
  | [] => false
  | x :: xs => decide (1 < xs.foldl max x)

/-- Per-value color normalization (lines 122-129): divide by 255 when the
column triggered normalization, then clip to the unit interval. -/
def normalizeValue (dividing : Bool) (x : ℚ) : ℚ :=
  clamp01 (if dividing then x / 255 else x)

/-- Color normalization step of `load_painting_data` (lines 121-129): each of
the three channel columns is divided by 255 when its maximum exceeds 1, then
clipped to the unit interval elementwise. CSV decoding, the missing-column
defaults and NaN filling (lines 93-119) happen before this step and are out
of scope of the numeric claims. -/
def load_painting_data (rows : List RawSample) : List Sample :=
  let divR := colMaxGtOne (rows.map RawSample.red_pct)
  let divG := colMaxGtOne (rows.map RawSample.green_pct)
  let divB := colMaxGtOne (rows.map RawSample.blue_pct)
  rows.map (fun t =>
    { year := t.year
      latitude := t.latitude
      longitude := t.longitude
      red_pct := normalizeValue divR t.red_pct
      green_pct := normalizeValue divG t.green_pct
      blue_pct := normalizeValue divB t.blue_pct })

/-- Hex digit test accepting both cases, for the frame color invariant. -/
def isHexDigitChar (ch : Char) : Bool :=
  (decide (48 ≤ ch.toNat) && decide (ch.toNat ≤ 57)) ||
  (decide (97 ≤ ch.toNat) && decide (ch.toNat ≤ 102)) ||
  (decide (65 ≤ ch.toNat) && decide (ch.toNat ≤ 70))

/-- A valid color string: a hash followed by exactly six hex digits. -/
def validColorString (s : String) : Bool :=
  match s.data with
  | [] => false
  | c :: rest => c == Char.ofNat 35 && rest.length == 6 && rest.all isHexDigitChar

/-! Specification-side formulations, to be compared with the source-side
accumulator loop. -/

/-- Total weight of a candidate list, written directly as the sum of the
documented weights `1 / (distance + eps)`. -/
def totalWeightSpec (l : List (ℚ × Sample)) : ℚ :=
  (l.map (fun dp => weightOf dp.1)).sum

/-- Weighted channel sum of a candidate list, written directly as the sum of
channel times weight. -/
def chanSumSpec (f : Sample → ℚ) (l : List (ℚ × Sample)) : ℚ :=
  (l.map (fun dp => f dp.2 * weightOf dp.1)).sum

/-- Unweighted mean of one channel over a sample list, the specification form
of the per-year channel mean. -/
def meanOf (f : Sample → ℚ) (yd : List Sample) : ℚ :=
  (yd.map f).sum / yd.length

/-- Specification-side dominant-channel label: the maximal mean wins, ties
resolved toward the earlier channel in the fixed order Red, Green, Blue. -/
def argmaxChannel (r g b : ℚ) : String :=
  if g ≤ r ∧ b ≤ r then "Red" else if b ≤ g then "Green" else "Blue"

/-- Insertion of an element into a list strictly after every entry with a key
not above its own: the position a stable sort gives to an element appended
last. Proof device for the k-cap claim. -/
def insertFarther (a : ℚ × Sample) : List (ℚ × Sample) → List (ℚ × Sample)
  | [] => [a]
  | x :: xs => if a.1 < x.1 then a :: x :: xs else x :: insertFarther a xs

/-- Forget the transient color slot of a region, keeping its identity and
geometry. -/
def eraseColor (c : Region) : Region := { c with color := none }

/-! Concrete inputs used to instantiate the theorems. -/

/-- A concrete planar distance function for witnesses (the pipeline theorems
quantify over the distance function). -/
def dTaxi : Dist := fun p q =>
  (if p.1 ≤ q.1 then q.1 - p.1 else p.1 - q.1) +
  (if p.2 ≤ q.2 then q.2 - p.2 else p.2 - q.2)

/-- Witness sample carrying pure red at distance 1 from the witness anchor. -/
def sampleA : Sample := ⟨2000, 50, 11, 1, 0, 0⟩

/-- Witness sample carrying pure green at distance 2 from the witness
anchor. -/
def sampleB : Sample := ⟨2000, 50, 12, 0, 1, 0⟩

/-- Witness region anchored at (50, 10). -/
def regionEx : Region := ⟨"Europe", 50, 10, none⟩

/-- Witness samples at taxicab distances 1 through 5 from the witness
anchor, plus a sixth strictly farther one. -/
def fiveSamples : List Sample :=
  [⟨2000, 50, 11, 1, 0, 0⟩, ⟨2000, 50, 12, 0, 1, 0⟩, ⟨2000, 50, 13, 0, 0, 1⟩,
   ⟨2000, 50, 14, 1, 1, 0⟩, ⟨2000, 50, 15, 0, 1, 1⟩]

/-- The sixth witness sample, at taxicab distance 10 from the witness
anchor. -/
def sampleFar : Sample := ⟨2000, 50, 20, 1, 1, 1⟩

/-! Helper lemmas. -/

theorem clamp01_nonneg (x : ℚ) : 0 ≤ clamp01 x :=
  le_min_iff.mpr ⟨le_max_right x 0, zero_le_one⟩

theorem clamp01_le_one (x : ℚ) : clamp01 x ≤ 1 :=
  min_le_right _ _

theorem weightOf_pos {d : ℚ} (hd : 0 ≤ d) : 0 < weightOf d := by
  have h : 0 < d + eps := by
    have : (0 : ℚ) < eps := by norm_num [eps]
    linarith
  simpa [weightOf] using one_div_pos.mpr h

theorem dTaxi_nonneg : ∀ p q, 0 ≤ dTaxi p q := by
  intro p q
  unfold dTaxi
  split_ifs <;> [skip; skip; skip; skip] <;>
    exact add_nonneg (by linarith) (by linarith)

theorem foldl_accumStep (l : List (ℚ × Sample)) : ∀ a : Acc,
    l.foldl accumStep a =
      ⟨a.total_weight + totalWeightSpec l,
       a.r_weighted_sum + chanSumSpec Sample.red_pct l,
       a.g_weighted_sum + chanSumSpec Sample.green_pct l,
       a.b_weighted_sum + chanSumSpec Sample.blue_pct l⟩ := by
  induction l with
  | nil =>
      intro a
      cases a
      simp [totalWeightSpec, chanSumSpec]
  | cons x xs ih =>
      intro a
      simp only [List.foldl_cons, ih, totalWeightSpec, chanSumSpec, List.map_cons,
        List.sum_cons, accumStep]
      congr 1 <;> ring

theorem accumulate_eq (l : List (ℚ × Sample)) :
    accumulate l =
      ⟨totalWeightSpec l, chanSumSpec Sample.red_pct l,
       chanSumSpec Sample.green_pct l, chanSumSpec Sample.blue_pct l⟩ := by
  simpa using foldl_accumStep l ⟨0, 0, 0, 0⟩

theorem totalWeightSpec_pos {l : List (ℚ × Sample)}
    (h0 : ∀ dp ∈ l, 0 ≤ dp.1) (hne : l ≠ []) : 0 < totalWeightSpec l := by
  apply List.sum_pos
  · intro x hx
    obtain ⟨dp, hdp, rfl⟩ := List.mem_map.mp hx
    exact weightOf_pos (h0 dp hdp)
  · intro hm
    exact hne (List.map_eq_nil_iff.mp hm)

theorem length_nearestFor (dist : Dist) (c : Region) (year_data : List Sample) :
    (nearestFor dist c year_data).length = min 5 year_data.length := by
  simp only [nearestFor, List.length_take, List.length_insertionSort, distancesFor,
    List.length_map]
  omega

theorem nearestFor_ne_nil {dist : Dist} {c : Region} {year_data : List Sample}
    (h : year_data ≠ []) : nearestFor dist c year_data ≠ [] := by
  apply List.ne_nil_of_length_pos
  rw [length_nearestFor]
  have := List.length_pos.mpr h
  omega

theorem mem_nearestFor_nonneg {dist : Dist} (hd : ∀ p q, 0 ≤ dist p q)
    (c : Region) (year_data : List Sample) :
    ∀ dp ∈ nearestFor dist c year_data, 0 ≤ dp.1 := by
  intro dp hdp
  simp only [nearestFor] at hdp
  have h1 := List.mem_of_mem_take hdp
  have h2 := (List.mem_insertionSort _).mp h1
  obtain ⟨p, hp, rfl⟩ := List.mem_map.mp h2
  exact hd _ _

theorem resolvedChannels_spec (dist : Dist) (hd : ∀ p q, 0 ≤ dist p q)
    (samples : List Sample) (c : Region) (year : Int)
    (hy : yearData samples year ≠ []) :
    resolvedChannels dist samples c year =
      (clamp01 (chanSumSpec Sample.red_pct (nearestFor dist c (yearData samples year)) /
          totalWeightSpec (nearestFor dist c (yearData samples year))),
       clamp01 (chanSumSpec Sample.green_pct (nearestFor dist c (yearData samples year)) /
          totalWeightSpec (nearestFor dist c (yearData samples year))),
       clamp01 (chanSumSpec Sample.blue_pct (nearestFor dist c (yearData samples year)) /
          totalWeightSpec (nearestFor dist c (yearData samples year)))) := by
  have hpos : 0 < totalWeightSpec (nearestFor dist c (yearData samples year)) :=
    totalWeightSpec_pos (mem_nearestFor_nonneg hd c _) (nearestFor_ne_nil hy)
  simp [resolvedChannels, accumulate_eq, channelAvg, hpos]

theorem safeHex_of_clamp (r g b : ℚ) :
    safeHex (clamp01 r) (clamp01 g) (clamp01 b) = rgb2hex (clamp01 r) (clamp01 g) (clamp01 b) :=
  if_pos ⟨clamp01_nonneg r, clamp01_le_one r, clamp01_nonneg g, clamp01_le_one g,
    clamp01_nonneg b, clamp01_le_one b⟩

/-- C10: the degenerate branch guarded by `total_weight == 0` is unreachable:
whenever at least one sample is selected for a region and every distance is
nonnegative (as planar Euclidean distance is), each weight `1/(d + 0.001)` is
strictly positive, so the accumulated total weight is strictly positive and
each resolved channel is the clamped weighted average, never the 0.5
default. -/
theorem C10_degenerate_branch_unreachable (dist : Dist) (hd : ∀ p q, 0 ≤ dist p q)
    (samples : List Sample) (c : Region) (year : Int)
    (hsel : nearestFor dist c (yearData samples year) ≠ []) :
    0 < (accumulate (nearestFor dist c (yearData samples year))).total_weight ∧
    resolvedChannels dist samples c year =
      (clamp01 ((accumulate (nearestFor dist c (yearData samples year))).r_weighted_sum /
          (accumulate (nearestFor dist c (yearData samples year))).total_weight),
       clamp01 ((accumulate (nearestFor dist c (yearData samples year))).g_weighted_sum /
          (accumulate (nearestFor dist c (yearData samples year))).total_weight),
       clamp01 ((accumulate (nearestFor dist c (yearData samples year))).b_weighted_sum /
          (accumulate (nearestFor dist c (yearData samples year))).total_weight)) := by
  have hpos : 0 < totalWeightSpec (nearestFor dist c (yearData samples year)) :=
    totalWeightSpec_pos (mem_nearestFor_nonneg hd c _) hsel
  have htot : 0 < (accumulate (nearestFor dist c (yearData samples year))).total_weight := by
    rw [accumulate_eq]
    exact hpos
  refine ⟨htot, ?_⟩
  simp [resolvedChannels, channelAvg, htot]

/-- C10 witness: at the concrete taxicab distance and the two-sample input,
the hypotheses hold and the total weight is positive. -/
theorem C10_degenerate_branch_unreachable_witness :
    (∀ p q, 0 ≤ dTaxi p q) ∧
    nearestFor dTaxi regionEx (yearData [sampleA, sampleB] 2000) ≠ [] ∧
    0 < (accumulate (nearestFor dTaxi regionEx (yearData [sampleA, sampleB] 2000))).total_weight := by
  have hsel : nearestFor dTaxi regionEx (yearData [sampleA, sampleB] 2000) ≠ [] :=
    nearestFor_ne_nil (by decide)
  exact ⟨dTaxi_nonneg, hsel,
    (C10_degenerate_branch_unreachable dTaxi dTaxi_nonneg [sampleA, sampleB] regionEx 2000
      hsel).1⟩

/-- C1: for a region and a year with at least one tagged sample, the resolved
color is the hex conversion of the inverse-distance weighted average of the
selected nearest samples, each channel a weight-1/(d+0.001) average clamped
to the unit interval, and the had-data flag is true. -/
theorem C1_weighted_average_formula (dist : Dist) (hd : ∀ p q, 0 ≤ dist p q)
    (samples : List Sample) (c : Region) (year : Int)
    (hy : yearData samples year ≠ []) :
    resolve dist c year samples =
      (rgb2hex
        (clamp01 (chanSumSpec Sample.red_pct (nearestFor dist c (yearData samples year)) /
            totalWeightSpec (nearestFor dist c (yearData samples year))))
        (clamp01 (chanSumSpec Sample.green_pct (nearestFor dist c (yearData samples year)) /
            totalWeightSpec (nearestFor dist c (yearData samples year))))
        (clamp01 (chanSumSpec Sample.blue_pct (nearestFor dist c (yearData samples year)) /
            totalWeightSpec (nearestFor dist c (yearData samples year)))), true) := by
  have hyE : (yearData samples year).isEmpty = false := by
    simpa [List.isEmpty_iff] using hy
  have hnE : (nearestFor dist c (yearData samples year)).isEmpty = false := by
    simpa [List.isEmpty_iff] using @nearestFor_ne_nil dist c _ hy
  simp only [resolve, hyE, hnE, Bool.false_eq_true, if_false,
    resolvedChannels_spec dist hd samples c year hy]
  rw [safeHex_of_clamp]

/-- C1 witness: at anchor (50,10) with the red sample at distance 1 and the
green sample at distance 2, the resolved channels are exactly the documented
ratios with weights 1/1.001 and 1/2.001, and blue is zero. -/
theorem C1_weighted_average_formula_witness :
    (∀ p q, 0 ≤ dTaxi p q) ∧
    yearData [sampleA, sampleB] 2000 ≠ [] ∧
    resolve dTaxi regionEx 2000 [sampleA, sampleB] =
      (rgb2hex (2001 / 3002) (1001 / 3002) 0, true) ∧
    (2001 / 3002 : ℚ) =
      (1 / (1 + 1 / 1000)) / (1 / (1 + 1 / 1000) + 1 / (2 + 1 / 1000)) ∧
    (1001 / 3002 : ℚ) =
      (1 / (2 + 1 / 1000)) / (1 / (1 + 1 / 1000) + 1 / (2 + 1 / 1000)) := by
  refine ⟨dTaxi_nonneg, by decide, ?_, by norm_num, by norm_num⟩
  rw [C1_weighted_average_formula dTaxi dTaxi_nonneg [sampleA, sampleB] regionEx 2000
    (by decide)]
  norm_num [yearData, nearestFor, distancesFor, dTaxi, sampleA, sampleB, regionEx, anchor,
    location, List.insertionSort, List.orderedInsert, chanSumSpec, totalWeightSpec,
    weightOf, eps, clamp01, Sample.red_pct, Sample.green_pct, Sample.blue_pct]

/-- C3: for a year with zero tagged samples, the resolver returns exactly the
gray sentinel with the had-data flag false, every region of the produced
frame carries the sentinel, and the dominant channel of the frame is none. -/
theorem C3_empty_year_sentinel (dist : Dist) (samples : List Sample)
    (regions : List Region) (c : Region) (year : Int)
    (hy : yearData samples year = []) :
    resolve dist c year samples = ("#CCCCCC", false) ∧
    (∀ reg ∈ (interpolate_colors_to_countries dist samples regions year).1,
      reg.color = some ("#CCCCCC")) ∧
    (interpolate_colors_to_countries dist samples regions year).2 = none := by
  refine ⟨by simp [resolve, hy], ?_, by simp [interpolate_colors_to_countries, hy]⟩
  intro reg hreg
  simp only [interpolate_colors_to_countries, hy, List.isEmpty_nil, if_true] at hreg
  obtain ⟨c0, _, rfl⟩ := List.mem_map.mp hreg
  rfl

/-- C3 witness: querying year 1950 against a sample set tagged 2000 yields
the sentinel resolver result, an all-sentinel frame, and no dominant
channel. -/
theorem C3_empty_year_sentinel_witness :
    yearData [sampleA, sampleB] 1950 = [] ∧
    resolve dTaxi regionEx 1950 [sampleA, sampleB] = ("#CCCCCC", false) ∧
    (∀ reg ∈ (interpolate_colors_to_countries dTaxi [sampleA, sampleB] [regionEx] 1950).1,
      reg.color = some ("#CCCCCC")) ∧
    (interpolate_colors_to_countries dTaxi [sampleA, sampleB] [regionEx] 1950).2 = none := by
  have h := C3_empty_year_sentinel dTaxi [sampleA, sampleB] [regionEx] regionEx 1950 (by decide)
  exact ⟨by decide, h.1, h.2.1, h.2.2⟩

/-- C8: with an empty sample set the driver produces no frames, writes no
files, and reports the no-years condition as a warning flag instead of
failing. -/
theorem C8_empty_samples_warning (dist : Dist) (regions : List Region) :
    (animate_color_usage dist [] regions).frames = [] ∧
    (animate_color_usage dist [] regions).files = [] ∧
    (animate_color_usage dist [] regions).emptyWarning = true := by
  refine ⟨rfl, rfl, rfl⟩

/-- C6: after ingestion every channel of every sample lies in the unit
interval: each column is divided by 255 when its maximum exceeds 1 and every
value is then clamped to the unit interval independently. -/
theorem C6_channels_unit_interval (rows : List RawSample) :
    ∀ s ∈ load_painting_data rows,
      0 ≤ s.red_pct ∧ s.red_pct ≤ 1 ∧ 0 ≤ s.green_pct ∧ s.green_pct ≤ 1 ∧
      0 ≤ s.blue_pct ∧ s.blue_pct ≤ 1 := by
  intro s hs
  simp only [load_painting_data, List.mem_map] at hs
  obtain ⟨t, _, rfl⟩ := hs
  exact ⟨clamp01_nonneg _, clamp01_le_one _, clamp01_nonneg _, clamp01_le_one _,
    clamp01_nonneg _, clamp01_le_one _⟩

/-- C6 witness: a raw red channel of 300 triggers the 0-255 normalization of
its column, becomes 300/255 which exceeds 1, and is clamped to exactly 1;
the other two columns stay on their original scale. -/
theorem C6_channels_unit_interval_witness :
    (⟨2000, 1, 2, 1, 1 / 2, 1 / 5⟩ : Sample) ∈
        load_painting_data [⟨2000, 1, 2, 300, 1 / 2, 1 / 5⟩] ∧
    (0 ≤ (⟨2000, 1, 2, 1, 1 / 2, 1 / 5⟩ : Sample).red_pct ∧
      (⟨2000, 1, 2, 1, 1 / 2, 1 / 5⟩ : Sample).red_pct ≤ 1 ∧
      0 ≤ (⟨2000, 1, 2, 1, 1 / 2, 1 / 5⟩ : Sample).green_pct ∧
      (⟨2000, 1, 2, 1, 1 / 2, 1 / 5⟩ : Sample).green_pct ≤ 1 ∧
      0 ≤ (⟨2000, 1, 2, 1, 1 / 2, 1 / 5⟩ : Sample).blue_pct ∧
      (⟨2000, 1, 2, 1, 1 / 2, 1 / 5⟩ : Sample).blue_pct ≤ 1) ∧
    load_painting_data [⟨2000, 1, 2, 300, 1 / 2, 1 / 5⟩] =
      [⟨2000, 1, 2, 1, 1 / 2, 1 / 5⟩] ∧
    (1 : ℚ) < 300 / 255 ∧ clamp01 (300 / 255) = 1 := by
  have heq : load_painting_data [⟨2000, 1, 2, 300, 1 / 2, 1 / 5⟩] =
      [⟨2000, 1, 2, 1, 1 / 2, 1 / 5⟩] := by
    norm_num [load_painting_data, colMaxGtOne, normalizeValue, clamp01, min_def, max_def]
  have hmem : (⟨2000, 1, 2, 1, 1 / 2, 1 / 5⟩ : Sample) ∈
      load_painting_data [⟨2000, 1, 2, 300, 1 / 2, 1 / 5⟩] := by
    rw [heq]; exact List.mem_singleton.mpr rfl
  refine ⟨hmem, C6_channels_unit_interval _ _ hmem, heq, by norm_num, ?_⟩
  norm_num [clamp01, min_def, max_def]

theorem hexDigit_mem (n : Nat) (h : n < 16) : isHexDigitChar (hexDigit n) = true := by
  interval_cases n <;> decide

theorem roundHalfEven_nonneg {x : ℚ} (hx : 0 ≤ x) : 0 ≤ roundHalfEven x := by
  have h0 : (0 : ℤ) ≤ ⌊x⌋ := Int.floor_nonneg.mpr hx
  unfold roundHalfEven
  split_ifs <;> omega

theorem roundHalfEven_le_255 {x : ℚ} (hx : x ≤ 255) : roundHalfEven x ≤ 255 := by
  have hf : ⌊x⌋ ≤ 255 := by
    have h1 : (⌊x⌋ : ℚ) ≤ 255 := le_trans (Int.floor_le x) hx
    exact_mod_cast h1
  rcases lt_or_eq_of_le hf with hl | he
  · unfold roundHalfEven
    split_ifs <;> omega
  · have hfr : x - ⌊x⌋ < 1 / 2 := by
      rw [he]
      push_cast
      linarith
    unfold roundHalfEven
    rw [if_pos hfr, he]

theorem hexTriple_valid (a b c : Nat) (ha : a ≤ 255) (hb : b ≤ 255) (hc : c ≤ 255) :
    validColorString ("#" ++ byteHex a ++ byteHex b ++ byteHex c) = true := by
  have h1 : a / 16 < 16 := by omega
  have h2 : a % 16 < 16 := by omega
  have h3 : b / 16 < 16 := by omega
  have h4 : b % 16 < 16 := by omega
  have h5 : c / 16 < 16 := by omega
  have h6 : c % 16 < 16 := by omega
  have hdata : ("#" ++ byteHex a ++ byteHex b ++ byteHex c).data =
      Char.ofNat 35 ::
        [hexDigit (a / 16), hexDigit (a % 16), hexDigit (b / 16), hexDigit (b % 16),
         hexDigit (c / 16), hexDigit (c % 16)] := by
    simp [String.data_append, byteHex]
  simp [validColorString, hdata, hexDigit_mem _ h1, hexDigit_mem _ h2, hexDigit_mem _ h3,
    hexDigit_mem _ h4, hexDigit_mem _ h5, hexDigit_mem _ h6]

theorem rgb2hex_valid {r g b : ℚ} (hr0 : 0 ≤ r) (hr1 : r ≤ 1) (hg0 : 0 ≤ g) (hg1 : g ≤ 1)
    (hb0 : 0 ≤ b) (hb1 : b ≤ 1) : validColorString (rgb2hex r g b) = true := by
  have bound : ∀ x : ℚ, 0 ≤ x → x ≤ 1 → (roundHalfEven (x * 255)).toNat ≤ 255 := by
    intro x h0 h1
    have hx255 : x * 255 ≤ 255 := by nlinarith
    have hle := roundHalfEven_le_255 hx255
    exact Int.toNat_le.mpr (by exact_mod_cast hle)
  exact hexTriple_valid _ _ _ (bound r hr0 hr1) (bound g hg0 hg1) (bound b hb0 hb1)

theorem safeHex_valid (r g b : ℚ) : validColorString (safeHex r g b) = true := by
  unfold safeHex
  split_ifs with h
  · exact rgb2hex_valid h.1 h.2.1 h.2.2.1 h.2.2.2.1 h.2.2.2.2.1 h.2.2.2.2.2
  · decide

/-- C5: every region of every produced frame is assigned a color and that
color is a valid six-hex-digit string; the gray sentinel stands in whenever a
region has no usable samples or a channel fails the range check. -/
theorem C5_every_region_valid_color (dist : Dist) (samples : List Sample)
    (regions : List Region) (year : Int) :
    ∀ reg ∈ (interpolate_colors_to_countries dist samples regions year).1,
      ∃ s, reg.color = some s ∧ validColorString s = true := by
  intro reg hreg
  by_cases hy : (yearData samples year).isEmpty = true
  · simp only [interpolate_colors_to_countries, hy, if_true] at hreg
    obtain ⟨c0, _, rfl⟩ := List.mem_map.mp hreg
    exact ⟨"#CCCCCC", rfl, by decide⟩
  · simp only [Bool.not_eq_true] at hy
    simp only [interpolate_colors_to_countries, hy, Bool.false_eq_true, if_false,
      apply_ite Prod.fst] at hreg
    rw [ite_self] at hreg
    obtain ⟨c0, _, rfl⟩ := List.mem_map.mp hreg
    by_cases hn : (nearestFor dist c0 (yearData samples year)).isEmpty = true
    · exact ⟨"#CCCCCC", by simp [colorRegion, hn, sentinelRegion], by decide⟩
    · simp only [Bool.not_eq_true] at hn
      simp only [colorRegion]
      rw [if_neg (by simp [hn])]
      exact ⟨_, rfl, safeHex_valid _ _ _⟩

/-- C5 witness: a frame built from a year with no samples still assigns a
valid color, the sentinel, to its region. -/
theorem C5_every_region_valid_color_witness :
    (⟨"Europe", 50, 10, some ("#CCCCCC")⟩ : Region) ∈
        (interpolate_colors_to_countries dTaxi [sampleA] [regionEx] 1950).1 ∧
    ∃ s, (⟨"Europe", 50, 10, some ("#CCCCCC")⟩ : Region).color = some s ∧
      validColorString s = true := by
  have hmem : (⟨"Europe", 50, 10, some ("#CCCCCC")⟩ : Region) ∈
      (interpolate_colors_to_countries dTaxi [sampleA] [regionEx] 1950).1 := by
    simp [interpolate_colors_to_countries, yearData, sampleA, regionEx, sentinelRegion]
  exact ⟨hmem, C5_every_region_valid_color dTaxi [sampleA] [regionEx] 1950 _ hmem⟩

theorem max_label (r g b : ℚ) :
    (if max r (max g b) = r then some ("Red")
     else if max r (max g b) = g then some ("Green") else some ("Blue")) =
      some (argmaxChannel r g b) := by
  unfold argmaxChannel
  split_ifs with h1 h2 h3 h4 h5 h6 h7 h8 <;> try rfl
  · exfalso
    have hgr : g ≤ r := h1 ▸ le_trans (le_max_left g b) (le_max_right r (g ⊔ b))
    have hbr : b ≤ r := h1 ▸ le_trans (le_max_right g b) (le_max_right r (g ⊔ b))
    exact h2 ⟨hgr, hbr⟩
  · exfalso
    have hgr : g ≤ r := h1 ▸ le_trans (le_max_left g b) (le_max_right r (g ⊔ b))
    have hbr : b ≤ r := h1 ▸ le_trans (le_max_right g b) (le_max_right r (g ⊔ b))
    exact h2 ⟨hgr, hbr⟩
  · exact absurd (max_eq_left (max_le h5.1 h5.2)) h1
  · exfalso
    have hbg : b ≤ r ⊔ (g ⊔ b) := le_trans (le_max_right g b) (le_max_right r (g ⊔ b))
    rw [h4] at hbg
    exact h6 hbg
  · exact absurd (max_eq_left (max_le h7.1 h7.2)) h1
  · exfalso
    rw [max_eq_left h8] at h1 h4
    exact (max_choice r g).elim h1 h4

theorem dominantOf_eq_argmax {yd : List Sample} (h : yd ≠ []) :
    dominantOf yd =
      some (argmaxChannel (meanOf Sample.red_pct yd) (meanOf Sample.green_pct yd)
        (meanOf Sample.blue_pct yd)) := by
  have hE : yd.isEmpty = false := by simpa [List.isEmpty_iff] using h
  simp only [dominantOf, hE, Bool.false_eq_true, if_false]
  exact max_label _ _ _

/-- C4 counterexample: with one sample in the year but an empty region set,
the code computes no dominant channel (none), while the claim demands the
argmax label, which would be Red here; so the claim as stated fails on the
code at this input. -/
theorem C4_dominant_counterexample :
    yearData [sampleA] 2000 ≠ [] ∧
    (interpolate_colors_to_countries dTaxi [sampleA] [] 2000).2 = none ∧
    argmaxChannel (meanOf Sample.red_pct (yearData [sampleA] 2000))
        (meanOf Sample.green_pct (yearData [sampleA] 2000))
        (meanOf Sample.blue_pct (yearData [sampleA] 2000)) = "Red" ∧
    (interpolate_colors_to_countries dTaxi [sampleA] [] 2000).2 ≠
      some (argmaxChannel (meanOf Sample.red_pct (yearData [sampleA] 2000))
        (meanOf Sample.green_pct (yearData [sampleA] 2000))
        (meanOf Sample.blue_pct (yearData [sampleA] 2000))) := by
  have h2 : (interpolate_colors_to_countries dTaxi [sampleA] [] 2000).2 = none := by
    simp [interpolate_colors_to_countries, yearData, sampleA]
  refine ⟨by decide, h2, ?_, by simp [h2]⟩
  norm_num [meanOf, yearData, sampleA, argmaxChannel]

/-- C4 amended: for every year with at least one sample, provided the region
set is nonempty (so that at least one region obtains a computed color), the
dominant channel of the frame is the channel with the maximal unweighted mean
over all samples of the year, ties resolved toward the earlier channel in the
order Red, Green, Blue; in particular three equal means yield Red. With an
empty region set, or zero samples, the dominant channel is none. -/
theorem C4_dominant_argmax (dist : Dist) (samples : List Sample)
    (regions : List Region) (year : Int)
    (hy : yearData samples year ≠ []) (hr : regions ≠ []) :
    (interpolate_colors_to_countries dist samples regions year).2 =
      some (argmaxChannel (meanOf Sample.red_pct (yearData samples year))
        (meanOf Sample.green_pct (yearData samples year))
        (meanOf Sample.blue_pct (yearData samples year))) ∧
    (meanOf Sample.red_pct (yearData samples year) =
        meanOf Sample.green_pct (yearData samples year) →
      meanOf Sample.green_pct (yearData samples year) =
        meanOf Sample.blue_pct (yearData samples year) →
      (interpolate_colors_to_countries dist samples regions year).2 = some ("Red")) := by
  have hyE : (yearData samples year).isEmpty = false := by
    simpa [List.isEmpty_iff] using hy
  have hfil : regions.filter
      (fun c => !(nearestFor dist c (yearData samples year)).isEmpty) = regions := by
    apply List.filter_eq_self.mpr
    intro c _
    simp [List.isEmpty_iff, nearestFor_ne_nil hy]
  have hfE : (regions.filter
      (fun c => !(nearestFor dist c (yearData samples year)).isEmpty)).isEmpty = false := by
    rw [hfil]
    simpa [List.isEmpty_iff] using hr
  have hmain : (interpolate_colors_to_countries dist samples regions year).2 =
      dominantOf (yearData samples year) := by
    simp only [interpolate_colors_to_countries, hyE, Bool.false_eq_true, if_false, hfE]
  refine ⟨hmain.trans (dominantOf_eq_argmax hy), fun hrg hgb => ?_⟩
  rw [hmain, dominantOf_eq_argmax hy, hrg, hgb]
  simp [argmaxChannel]

/-- C4 witness: with the red and green witness samples the red and green
means tie at one half and blue is zero, so the dominant channel is Red by
the tie-break. -/
theorem C4_dominant_argmax_witness :
    yearData [sampleA, sampleB] 2000 ≠ [] ∧ ([regionEx] : List Region) ≠ [] ∧
    (interpolate_colors_to_countries dTaxi [sampleA, sampleB] [regionEx] 2000).2 =
      some (argmaxChannel (meanOf Sample.red_pct (yearData [sampleA, sampleB] 2000))
        (meanOf Sample.green_pct (yearData [sampleA, sampleB] 2000))
        (meanOf Sample.blue_pct (yearData [sampleA, sampleB] 2000))) ∧
    argmaxChannel (meanOf Sample.red_pct (yearData [sampleA, sampleB] 2000))
        (meanOf Sample.green_pct (yearData [sampleA, sampleB] 2000))
        (meanOf Sample.blue_pct (yearData [sampleA, sampleB] 2000)) = "Red" := by
  refine ⟨by decide, by decide,
    (C4_dominant_argmax dTaxi [sampleA, sampleB] [regionEx] 2000 (by decide) (by decide)).1,
    ?_⟩
  norm_num [meanOf, yearData, sampleA, sampleB, argmaxChannel]

theorem orderedInsert_insertFarther (x a : ℚ × Sample) (m : List (ℚ × Sample)) :
    List.orderedInsert (fun p q : ℚ × Sample => p.1 ≤ q.1) x (insertFarther a m) =
      insertFarther a (List.orderedInsert (fun p q : ℚ × Sample => p.1 ≤ q.1) x m) := by
  induction m with
  | nil =>
      simp only [insertFarther, List.orderedInsert]
      split_ifs <;> first | rfl | (exfalso; linarith)
  | cons y ys ih =>
      by_cases hay : a.1 < y.1
      · by_cases hxa : x.1 ≤ a.1
        · have hxy : x.1 ≤ y.1 := le_trans hxa hay.le
          simp [insertFarther, List.orderedInsert, hay, hxa, hxy, not_lt.mpr hxa]
        · by_cases hxy : x.1 ≤ y.1
          · simp [insertFarther, List.orderedInsert, hay, hxa, hxy, not_le.mp hxa]
          · simp [insertFarther, List.orderedInsert, hay, hxa, hxy]
      · by_cases hxy : x.1 ≤ y.1
        · have hax : ¬ a.1 < x.1 := fun hc => hay (lt_of_lt_of_le hc hxy)
          simp [insertFarther, List.orderedInsert, hay, hxy, hax]
        · simp [insertFarther, List.orderedInsert, hay, hxy, ih]

theorem length_insertFarther (a : ℚ × Sample) (m : List (ℚ × Sample)) :
    (insertFarther a m).length = m.length + 1 := by
  induction m with
  | nil => rfl
  | cons y ys ih =>
      simp only [insertFarther]
      split_ifs <;> simp [ih]

theorem insertionSort_append_far (l : List (ℚ × Sample)) (a : ℚ × Sample) :
    List.insertionSort (fun p q : ℚ × Sample => p.1 ≤ q.1) (l ++ [a]) =
      insertFarther a (List.insertionSort (fun p q : ℚ × Sample => p.1 ≤ q.1) l) := by
  induction l with
  | nil => rfl
  | cons x xs ih =>
      simp only [List.cons_append, List.insertionSort, List.append_eq, ih,
        orderedInsert_insertFarther]

theorem take_insertFarther (a : ℚ × Sample) :
    ∀ (k : Nat) (m : List (ℚ × Sample)), k ≤ m.length →
      (∀ x ∈ m.take k, x.1 < a.1) → (insertFarther a m).take k = m.take k := by
  intro k m
  induction m generalizing k with
  | nil =>
      intro hk _
      have hk0 : k = 0 := by simpa using hk
      subst hk0
      simp
  | cons y ys ih =>
      intro hk hfar
      cases k with
      | zero => simp
      | succ k =>
          have hy : y.1 < a.1 := hfar y (by simp)
          have hna : ¬ a.1 < y.1 := not_lt.mpr hy.le
          simp only [insertFarther, if_neg hna, List.take_succ_cons]
          exact congrArg (y :: ·) (ih k (by simpa using hk) (fun z hz => hfar z (by simp [hz])))

theorem nearestFor_append_far {dist : Dist} {c : Region} {yd : List Sample} {s6 : Sample}
    (hlen : 5 ≤ yd.length)
    (hfar : ∀ dp ∈ nearestFor dist c yd, dp.1 < dist (anchor c) (location s6)) :
    nearestFor dist c (yd ++ [s6]) = nearestFor dist c yd := by
  have hDapp : distancesFor dist c (yd ++ [s6]) =
      distancesFor dist c yd ++ [(dist (anchor c) (location s6), s6)] := by
    simp [distancesFor]
  have hlenD : 5 ≤ (distancesFor dist c yd).length := by
    simpa [distancesFor] using hlen
  have hlenS : 5 ≤
      (List.insertionSort (fun p q : ℚ × Sample => p.1 ≤ q.1)
        (distancesFor dist c yd)).length := by
    rwa [List.length_insertionSort]
  have hmin : min 5
      (List.insertionSort (fun p q : ℚ × Sample => p.1 ≤ q.1)
        (distancesFor dist c yd)).length = 5 := by omega
  have hfar5 : ∀ x ∈ (List.insertionSort (fun p q : ℚ × Sample => p.1 ≤ q.1)
      (distancesFor dist c yd)).take 5,
      x.1 < (dist (anchor c) (location s6), s6).1 := by
    intro z hz
    apply hfar
    simpa only [nearestFor, hmin] using hz
  simp only [nearestFor, hDapp, insertionSort_append_far, length_insertFarther,
    List.length_insertionSort]
  have hmin2 : min 5 ((distancesFor dist c yd).length + 1) = 5 := by omega
  have hmin3 : min 5 (distancesFor dist c yd).length = 5 := by omega
  rw [hmin2, hmin3]
  exact take_insertFarther _ 5 _ hlenS
    (by simpa only [List.length_insertionSort] using hfar5)

/-- C2: under the fixed cap only the five nearest samples influence a region:
when a year already has at least five samples and a further sample of that
year, strictly farther from the region anchor than every selected nearest
sample, is appended to the data, the resolved color of the region is
unchanged. -/
theorem C2_kcap_five_nearest (dist : Dist) (samples : List Sample) (c : Region)
    (year : Int) (s6 : Sample) (h6 : s6.year = year)
    (hlen : 5 ≤ (yearData samples year).length)
    (hfar : ∀ dp ∈ nearestFor dist c (yearData samples year),
      dp.1 < dist (anchor c) (location s6)) :
    resolve dist c year (samples ++ [s6]) = resolve dist c year samples := by
  have hyd : yearData (samples ++ [s6]) year = yearData samples year ++ [s6] := by
    simp [yearData, List.filter_append, h6]
  have hyne : yearData samples year ≠ [] := by
    intro h0
    rw [h0] at hlen
    simp at hlen
  have hE1 : (yearData samples year).isEmpty = false := by
    simpa [List.isEmpty_iff] using hyne
  have hE2 : (yearData (samples ++ [s6]) year).isEmpty = false := by
    rw [hyd]
    simp
  have hkey : nearestFor dist c (yearData (samples ++ [s6]) year) =
      nearestFor dist c (yearData samples year) := by
    rw [hyd]
    exact nearestFor_append_far hlen hfar
  have hn1 : (nearestFor dist c (yearData samples year)).isEmpty = false := by
    simpa [List.isEmpty_iff] using @nearestFor_ne_nil dist c _ hyne
  simp only [resolve, resolvedChannels, hkey, hE1, hE2, hn1]

/-- C2 witness: five samples at taxicab distances 1 to 5 from the anchor and
a sixth at distance 10; appending the sixth leaves the resolved color
unchanged. -/
theorem C2_kcap_five_nearest_witness :
    sampleFar.year = 2000 ∧
    5 ≤ (yearData fiveSamples 2000).length ∧
    (∀ dp ∈ nearestFor dTaxi regionEx (yearData fiveSamples 2000),
      dp.1 < dTaxi (anchor regionEx) (location sampleFar)) ∧
    resolve dTaxi regionEx 2000 (fiveSamples ++ [sampleFar]) =
      resolve dTaxi regionEx 2000 fiveSamples := by
  have hfar : ∀ dp ∈ nearestFor dTaxi regionEx (yearData fiveSamples 2000),
      dp.1 < dTaxi (anchor regionEx) (location sampleFar) := by
    intro dp hdp
    norm_num [nearestFor, distancesFor, yearData, fiveSamples, sampleFar, regionEx, anchor,
      location, dTaxi, List.insertionSort, List.orderedInsert] at hdp ⊢
    rcases hdp with h | h | h | h | h <;> rw [h] <;> norm_num
  exact ⟨rfl, by decide, hfar,
    C2_kcap_five_nearest dTaxi fiveSamples regionEx 2000 sampleFar rfl (by decide) hfar⟩

theorem zip_map_pair (f : Nat → Int → String) :
    ∀ (l1 : List Nat) (l2 : List Int),
      (l1.zip l2).map (fun p => f p.1 p.2) = List.zipWith f l1 l2 := by
  intro l1
  induction l1 with
  | nil => intro l2; simp
  | cons x xs ih =>
      intro l2
      cases l2 <;> simp [ih]

theorem yearsOf_ne_nil {samples : List Sample} (hne : samples ≠ []) :
    yearsOf samples ≠ [] := by
  simp only [yearsOf]
  intro h0
  have hl := congrArg List.length h0
  rw [List.length_insertionSort] at hl
  simp only [List.length_nil] at hl
  have hd : (samples.map Sample.year).dedup = [] := List.length_eq_zero.mp hl
  have hm : samples.map Sample.year = [] := (List.dedup_eq_nil _).mp hd
  exact hne (List.map_eq_nil_iff.mp hm)

/-- C7: for a nonempty sample set the driver visits exactly the distinct
years of the samples in strictly ascending order, builds one frame per such
year, and writes one raster path per year with the index running in step
with the year sequence. -/
theorem C7_one_frame_per_year (dist : Dist) (samples : List Sample)
    (regions : List Region) (hne : samples ≠ []) :
    List.Sorted (· < ·) (yearsOf samples) ∧
    (∀ y : Int, y ∈ yearsOf samples ↔ ∃ s ∈ samples, s.year = y) ∧
    (animate_color_usage dist samples regions).frames =
      (yearsOf samples).map
        (fun y => interpolate_colors_to_countries dist samples regions y) ∧
    (animate_color_usage dist samples regions).files =
      List.zipWith framePath (List.range (yearsOf samples).length) (yearsOf samples) := by
  have hE : (yearsOf samples).isEmpty = false := by
    simpa [List.isEmpty_iff] using yearsOf_ne_nil hne
  refine ⟨?_, ?_, ?_, ?_⟩
  · have hs : List.Sorted (fun a b : Int => a ≤ b) (yearsOf samples) :=
      List.sorted_insertionSort _ _
    have hnd : (yearsOf samples).Nodup :=
      (List.perm_insertionSort _ _).symm.nodup (List.nodup_dedup _)
    exact hs.lt_of_le hnd
  · intro y
    simp [yearsOf, List.mem_insertionSort, List.mem_dedup, List.mem_map]
  · simp only [animate_color_usage, hE, Bool.false_eq_true, if_false]
  · simp only [animate_color_usage, hE, Bool.false_eq_true, if_false]
    rw [List.enum_eq_zip_range]
    exact zip_map_pair framePath _ _

/-- C7 witness: a one-sample set yields the single year 2000, one frame, and
the single raster path with index zero. -/
theorem C7_one_frame_per_year_witness :
    ([sampleA] : List Sample) ≠ [] ∧
    (List.Sorted (· < ·) (yearsOf [sampleA]) ∧
      (∀ y : Int, y ∈ yearsOf [sampleA] ↔ ∃ s ∈ [sampleA], s.year = y) ∧
      (animate_color_usage dTaxi [sampleA] [regionEx]).frames =
        (yearsOf [sampleA]).map
          (fun y => interpolate_colors_to_countries dTaxi [sampleA] [regionEx] y) ∧
      (animate_color_usage dTaxi [sampleA] [regionEx]).files =
        List.zipWith framePath (List.range (yearsOf [sampleA]).length)
          (yearsOf [sampleA])) :=
  ⟨by decide, C7_one_frame_per_year dTaxi [sampleA] [regionEx] (by decide)⟩

theorem map_eraseColor_eq {regions regions2 : List Region}
    (h : regions.map eraseColor = regions2.map eraseColor)
    (f : Region → Region) (hf : ∀ c, f c = f (eraseColor c)) :
    regions.map f = regions2.map f := by
  have h1 : regions.map f = (regions.map eraseColor).map f := by
    rw [List.map_map]
    exact List.map_congr_left (fun c _ => hf c)
  have h2 : (regions2.map eraseColor).map f = regions2.map f := by
    rw [List.map_map]
    exact List.map_congr_left (fun c _ => (hf c).symm)
  rw [h1, h, h2]

theorem filter_isEmpty_eraseColor {regions regions2 : List Region}
    (h : regions.map eraseColor = regions2.map eraseColor)
    (p : Region → Bool) (hp : ∀ c, p (eraseColor c) = p c) :
    (regions.filter p).isEmpty = (regions2.filter p).isEmpty := by
  have key : ∀ (l1 l2 : List Region), l1.map eraseColor = l2.map eraseColor →
      (∀ c ∈ l1, ¬p c = true) → (∀ c ∈ l2, ¬p c = true) := by
    intro l1 l2 hmap hall c2 hc2
    have hmem : eraseColor c2 ∈ l2.map eraseColor := List.mem_map_of_mem _ hc2
    rw [← hmap] at hmem
    obtain ⟨c1, hc1, he⟩ := List.mem_map.mp hmem
    intro hpc2
    apply hall c1 hc1
    calc p c1 = p (eraseColor c1) := (hp c1).symm
      _ = p (eraseColor c2) := by rw [he]
      _ = p c2 := hp c2
      _ = true := hpc2
  rw [Bool.eq_iff_iff, List.isEmpty_iff, List.isEmpty_iff, List.filter_eq_nil_iff,
    List.filter_eq_nil_iff]
  exact ⟨key regions regions2 h, key regions2 regions h.symm⟩

theorem nearestFor_eraseColor (dist : Dist) (c : Region) (yd : List Sample) :
    nearestFor dist (eraseColor c) yd = nearestFor dist c yd := rfl

theorem resolvedChannels_eraseColor (dist : Dist) (samples : List Sample)
    (c : Region) (year : Int) :
    resolvedChannels dist samples (eraseColor c) year =
      resolvedChannels dist samples c year := rfl

theorem colorRegion_eraseColor (dist : Dist) (samples : List Sample) (year : Int)
    (c : Region) :
    colorRegion dist samples year c = colorRegion dist samples year (eraseColor c) := by
  simp only [colorRegion, nearestFor_eraseColor, resolvedChannels_eraseColor]
  by_cases hn : (nearestFor dist c (yearData samples year)).isEmpty = true <;>
    simp [hn, sentinelRegion, eraseColor]

theorem eraseColor_colorRegion (dist : Dist) (samples : List Sample) (year : Int)
    (c : Region) :
    eraseColor (colorRegion dist samples year c) = eraseColor c := by
  by_cases hn : (nearestFor dist c (yearData samples year)).isEmpty = true <;>
    simp [colorRegion, hn, sentinelRegion, eraseColor]

theorem interp_congr (dist : Dist) (samples : List Sample) (year : Int)
    {regions regions2 : List Region}
    (h : regions.map eraseColor = regions2.map eraseColor) :
    interpolate_colors_to_countries dist samples regions year =
      interpolate_colors_to_countries dist samples regions2 year := by
  simp only [interpolate_colors_to_countries]
  by_cases hy : (yearData samples year).isEmpty = true
  · simp only [hy, if_true]
    rw [map_eraseColor_eq h sentinelRegion (fun c => rfl)]
  · simp only [Bool.not_eq_true] at hy
    simp only [hy, Bool.false_eq_true, if_false]
    rw [map_eraseColor_eq h (colorRegion dist samples year)
        (colorRegion_eraseColor dist samples year),
      filter_isEmpty_eraseColor h
        (fun c => !(nearestFor dist c (yearData samples year)).isEmpty)
        (fun c => rfl)]

theorem map_eraseColor_interp (dist : Dist) (samples : List Sample)
    (regions : List Region) (year : Int) :
    ((interpolate_colors_to_countries dist samples regions year).1).map eraseColor =
      regions.map eraseColor := by
  simp only [interpolate_colors_to_countries]
  by_cases hy : (yearData samples year).isEmpty = true
  · simp only [hy, if_true]
    rw [List.map_map]
    exact List.map_congr_left (fun c _ => rfl)
  · simp only [Bool.not_eq_true] at hy
    simp only [hy, Bool.false_eq_true, if_false, apply_ite Prod.fst]
    rw [ite_self, List.map_map]
    exact List.map_congr_left (fun c _ => eraseColor_colorRegion dist samples year c)

/-- C9: resolution is a pure function of its inputs: the produced frame does
not depend on the transient colors the region set carries on entry (colors
are overwritten, never merged), and rebuilding a frame from the region set
already colored by an earlier pass over any year gives exactly the frame
built from the fresh region set, so no state accumulates across years. -/
theorem C9_pure_resolution (dist : Dist) (samples : List Sample)
    (regions regions2 : List Region) (year y1 : Int)
    (h : regions.map eraseColor = regions2.map eraseColor) :
    interpolate_colors_to_countries dist samples regions year =
      interpolate_colors_to_countries dist samples regions2 year ∧
    interpolate_colors_to_countries dist samples
        (interpolate_colors_to_countries dist samples regions y1).1 year =
      interpolate_colors_to_countries dist samples regions year :=
  ⟨interp_congr dist samples year h,
    interp_congr dist samples year (map_eraseColor_interp dist samples regions y1)⟩

/-- C9 witness: a region set with a stale color and the fresh one resolve
identically, and re-resolving the already-colored output of the 1950 pass
for the year 2000 equals resolving the fresh region set for 2000. -/
theorem C9_pure_resolution_witness :
    ([regionEx] : List Region).map eraseColor =
      ([⟨"Europe", 50, 10, some ("#123456")⟩] : List Region).map eraseColor ∧
    (interpolate_colors_to_countries dTaxi [sampleA] [regionEx] 2000 =
      interpolate_colors_to_countries dTaxi [sampleA]
        [⟨"Europe", 50, 10, some ("#123456")⟩] 2000 ∧
    interpolate_colors_to_countries dTaxi [sampleA]
        (interpolate_colors_to_countries dTaxi [sampleA] [regionEx] 1950).1 2000 =
      interpolate_colors_to_countries dTaxi [sampleA] [regionEx] 2000) :=
  ⟨rfl, C9_pure_resolution dTaxi [sampleA] [regionEx]
    [⟨"Europe", 50, 10, some ("#123456")⟩] 2000 1950 rfl⟩

end FAMAST
